import Mathlib

/-!
Verification of the chunk header codec (`FChunkHeader`) and the chunk part
resolver (`FileChunkPart`) of the epic-manifest-parser repository, as a shallow
embedding in Lean.  Byte buffers are `List Nat` (one entry per byte), JS strings
are `List Nat` of character codes, and the external collaborators (zlib
inflate, the rolling-hash algorithm, SHA-1) are passed in as explicit function
parameters, matching the spec's treatment of them as opaque collaborators.
-/

namespace EpicMP

/-- JS strings (paths, filenames, URLs) modelled as lists of character codes. -/
abbrev JStr := List Nat

/-- Models the byte-buffer cursor abstraction `FArchive`: a byte list plus a
read position.  Reads yield the bytes at the cursor and advance it. -/
structure FArchive where
  data : List Nat
  pos : Nat
deriving DecidableEq

def FArchive.size (ar : FArchive) : Nat := ar.data.length

def FArchive.tell (ar : FArchive) : Nat := ar.pos

def FArchive.seek (ar : FArchive) (p : Nat) : FArchive := { ar with pos := p }

def FArchive.skip (ar : FArchive) (n : Nat) : FArchive := { ar with pos := ar.pos + n }

/-- Models `ar.read(n)`: the `n` bytes at the cursor (fewer if the buffer
ends), cursor advanced by `n`. -/
def FArchive.read (ar : FArchive) (n : Nat) : List Nat × FArchive :=
  ((ar.data.drop ar.pos).take n, ar.skip n)

def FArchive.readUInt8 (ar : FArchive) : Nat × FArchive :=
  (ar.data.getD ar.pos 0, ar.skip 1)

/-- Little-endian 32-bit read: value of the 4 bytes at the cursor. -/
def FArchive.readUInt32 (ar : FArchive) : Nat × FArchive :=
  (Nat.ofDigits 256 ((ar.data.drop ar.pos).take 4), ar.skip 4)

/-- Little-endian 64-bit read: value of the 8 bytes at the cursor. -/
def FArchive.readUInt64 (ar : FArchive) : Nat × FArchive :=
  (Nat.ofDigits 256 ((ar.data.drop ar.pos).take 8), ar.skip 8)

/-- Modelled from the spec: the `EChunkVersion` enum (file not under `src/`).
Versions `Original = 1`, `StoresShaAndHashType = 2`,
`StoresDataSizeUncompressed = 3`; `Latest` is the highest known version. -/
def EChunkVersion.Original : Nat := 1

def EChunkVersion.StoresShaAndHashType : Nat := 2

def EChunkVersion.StoresDataSizeUncompressed : Nat := 3

def EChunkVersion.Latest : Nat := 3

/-- Modelled from the spec: `ChunkHeaderVersionSizes` (file not under `src/`),
the fixed header byte count per version, from the wire layout
`Magic(4) Version(4) HeaderSize(4) CompressedDataSize(4) Guid(16)
RollingHash(8) StorageFlags(1)` = 41 bytes for v1, plus
`ShaDigest(20) HashTypeFlags(1)` = 62 for v2, plus
`UncompressedDataSize(4)` = 66 for v3.  The source stores these in an array
indexed by version number; unknown indices fall outside the array (0 here). -/
def ChunkHeaderVersionSizes : Nat → Nat
  | 1 => 41
  | 2 => 62
  | 3 => 66
  | _ => 0

/-- Modelled from the spec: the `EChunkStorageFlags` bit flags
(file not under `src/`): none / compressed / encrypted. -/
def EChunkStorageFlags.None : Nat := 0x00

def EChunkStorageFlags.Compressed : Nat := 0x01

def EChunkStorageFlags.Encrypted : Nat := 0x02

/-- The `EChunkHashFlags` enum, from the source. -/
def EChunkHashFlags.None : Nat := 0x00

def EChunkHashFlags.RollingPoly64 : Nat := 0x01

def EChunkHashFlags.Sha1 : Nat := 0x02

/-- Modelled from the spec: the `EChunkLoadResult` enum (file not under
`src/`), the result taxonomy of `FChunkHeader.load`. -/
inductive EChunkLoadResult where
  | Success
  | CorruptHeader
  | MissingHashInfo
  | IncorrectFileSize
  | UnsupportedStorage
  | DecompressFailure
  | HashCheckFailed
deriving DecidableEq

/-- Modelled from the spec: `FGuid` (file not under `src/`), an opaque 128-bit
identifier read as four 32-bit components; valid iff non-zero. -/
structure FGuid where
  A : Nat := 0
  B : Nat := 0
  C : Nat := 0
  D : Nat := 0
deriving DecidableEq

/-- Models `new FGuid(ar)`: four consecutive 32-bit reads. -/
def FGuid.read (ar : FArchive) : FGuid × FArchive :=
  let (a, ar1) := ar.readUInt32
  let (b, ar2) := ar1.readUInt32
  let (c, ar3) := ar2.readUInt32
  let (d, ar4) := ar3.readUInt32
  ({ A := a, B := b, C := c, D := d }, ar4)

/-- Models `FGuid.isValid()`: the GUID is valid iff it is non-zero. -/
def FGuid.isValid (g : FGuid) : Bool :=
  !(g.A == 0 && g.B == 0 && g.C == 0 && g.D == 0)

/-- Modelled from the spec: `FSHAHash` (file not under `src/`), a 20-byte SHA-1
digest; the default value is all zeros. -/
structure FSHAHash where
  bytes : List Nat := List.replicate 20 0
deriving DecidableEq

def FSHAHash.SIZE : Nat := 20

/-- Models `new FSHAHash(ar)`: reads 20 digest bytes. -/
def FSHAHash.read (ar : FArchive) : FSHAHash × FArchive :=
  (⟨(ar.data.drop ar.pos).take FSHAHash.SIZE⟩, ar.skip FSHAHash.SIZE)

/-- Modelled from the spec: `HexUtils.toHex` (file not under `src/`), the
hex-normalized rendering of an integer value, modelled as its base-16 digit
list; distinct values render to distinct strings. -/
def toHex (n : Nat) : List Nat := Nat.digits 16 n

/-- Hex rendering of a byte string, two hex digits per byte, modelling
`digest("hex").toUpperCase()` and `FSHAHash.toString()`. -/
def hexOfBytes (l : List Nat) : List Nat := l.flatMap (fun b => [b / 16, b % 16])

/-- External collaborators of the codec, per the spec's interface contracts:
`zlib.inflateSync`, `FRollingHash.GetHashForDataSet`, and the SHA-1 digest
(as raw digest bytes). -/
structure Externals where
  inflate : List Nat → List Nat
  rollingHash : List Nat → Nat
  sha1 : List Nat → List Nat

/-- The copy arithmetic of `Buffer.alloc(targetLen)` (zero filled) followed by
`source.copy(target, 0, srcStart, srcEnd)` in the region where the copy does
not throw: `srcEnd` is clamped to the source length and the target capacity,
and target bytes the copy does not reach keep their zero fill.  The bounds
check that can throw lives in `bufferCopyChecked`. -/
def bufferCopy (source : List Nat) (targetLen srcStart srcEnd : Nat) : List Nat :=
  let seg := ((source.take (min srcEnd source.length)).drop srcStart).take targetLen
  seg ++ List.replicate (targetLen - seg.length) 0

/-- Models the bounds behavior of Node `source.copy(target, 0, srcStart,
srcEnd)` into a target of `targetLen` bytes: a degenerate copy (empty target
or empty source range) returns before any bounds check; a source start
strictly past the source end throws `ERR_OUT_OF_RANGE` (`none` here); and
otherwise the copy is clamped to the source length. -/
def bufferCopyChecked (source : List Nat) (targetLen srcStart srcEnd : Nat) :
    Option (List Nat) :=
  if targetLen = 0 ∨ srcEnd ≤ srcStart then some (bufferCopy source targetLen srcStart srcEnd)
  else if source.length < srcStart then none
  else some (bufferCopy source targetLen srcStart srcEnd)

/-- The chunk container header, mirroring the fields of `FChunkHeader`. -/
structure FChunkHeader where
  Version : Nat
  HeaderSize : Nat
  Guid : FGuid
  DataSizeCompressed : Nat
  DataSizeUncompressed : Nat
  StoredAs : Nat
  HashType : Nat
  RollingHash : Nat
  SHAHash : FSHAHash
deriving DecidableEq

/-- The chunk header magic codeword. -/
def FChunkHeader.MAGIC : Nat := 0xB1FE3AA2

/-- The field defaults of the `FChunkHeader` class (its initializers), which
are also the reset values used on a serialization error. -/
def FChunkHeader.default : FChunkHeader where
  Version := EChunkVersion.Latest
  HeaderSize := ChunkHeaderVersionSizes EChunkVersion.Latest
  Guid := {}
  DataSizeCompressed := 0
  DataSizeUncompressed := 1024 * 1024
  StoredAs := EChunkStorageFlags.None
  HashType := EChunkHashFlags.RollingPoly64
  RollingHash := 0
  SHAHash := {}

/-- Models the `FChunkHeader` constructor: decode one header from the archive.
Returns the header (reset to defaults on any serialization failure) and the
archive state the constructor leaves behind (sought to `startPos + HeaderSize`
exactly on success). -/
def FChunkHeader.decode (ar0 : FArchive) (lazy : Bool) : FChunkHeader × FArchive :=
  let startPos := ar0.tell
  let sizeLeft := ar0.size - startPos
  if sizeLeft < ChunkHeaderVersionSizes EChunkVersion.Original then
    (FChunkHeader.default, ar0)
  else
    let (magic, ar) := ar0.readUInt32
    let (version, ar) := ar.readUInt32
    let (headerSize, ar) := ar.readUInt32
    let (dataSizeCompressed, ar) := ar.readUInt32
    let (guid, ar) := FGuid.read ar
    let (rollingHash, ar) :=
      if lazy then (FChunkHeader.default.RollingHash, ar.skip 8) else ar.readUInt64
    let (storedAs, ar) := ar.readUInt8
    let bSuccess := magic == FChunkHeader.MAGIC
    let expectedBytes := ChunkHeaderVersionSizes EChunkVersion.Original
    -- from version 2 a hash type choice is stored; earlier versions default to rolling only
    let (bSuccess, shaHash, hashType, expectedBytes, ar) :=
      if bSuccess && decide (EChunkVersion.StoresShaAndHashType ≤ version) then
        if decide (ChunkHeaderVersionSizes EChunkVersion.StoresShaAndHashType ≤ sizeLeft) then
          if lazy then
            (true, FChunkHeader.default.SHAHash, FChunkHeader.default.HashType,
              ChunkHeaderVersionSizes EChunkVersion.StoresShaAndHashType,
              (ar.skip FSHAHash.SIZE).skip 1)
          else
            let (sha, ar) := FSHAHash.read ar
            let (ht, ar) := ar.readUInt8
            (true, sha, ht, ChunkHeaderVersionSizes EChunkVersion.StoresShaAndHashType, ar)
        else
          (false, FChunkHeader.default.SHAHash, FChunkHeader.default.HashType,
            ChunkHeaderVersionSizes EChunkVersion.StoresShaAndHashType, ar)
      else
        (bSuccess, FChunkHeader.default.SHAHash, FChunkHeader.default.HashType, expectedBytes, ar)
    -- from version 3 an uncompressed data size is stored; earlier versions default to 1 MiB
    let (bSuccess, dataSizeUncompressed, expectedBytes, ar) :=
      if bSuccess && decide (EChunkVersion.StoresDataSizeUncompressed ≤ version) then
        if decide (ChunkHeaderVersionSizes EChunkVersion.StoresDataSizeUncompressed ≤ sizeLeft) then
          let (dsu, ar) := ar.readUInt32
          (true, dsu, ChunkHeaderVersionSizes EChunkVersion.StoresDataSizeUncompressed, ar)
        else
          (false, FChunkHeader.default.DataSizeUncompressed,
            ChunkHeaderVersionSizes EChunkVersion.StoresDataSizeUncompressed, ar)
      else
        (bSuccess, FChunkHeader.default.DataSizeUncompressed, expectedBytes, ar)
    -- make sure the expected number of bytes were serialized
    let bSuccess := bSuccess && (ar.tell - startPos == expectedBytes)
    if bSuccess then
      ({ Version := version, HeaderSize := headerSize, Guid := guid,
         DataSizeCompressed := dataSizeCompressed,
         DataSizeUncompressed := dataSizeUncompressed,
         StoredAs := storedAs, HashType := hashType,
         RollingHash := rollingHash, SHAHash := shaHash },
        ar.seek (startPos + headerSize))
    else
      (FChunkHeader.default, ar)

/-- The decompress-then-verify tail of `FChunkHeader.load`, applied to the
payload bytes just read from the archive. -/
def FChunkHeader.finish (h : FChunkHeader) (buf0 : List Nat) (lazy : Bool)
    (ext : Externals) : EChunkLoadResult × Option (List Nat) :=
  let step :=
    if h.StoredAs &&& EChunkStorageFlags.Compressed = EChunkStorageFlags.Compressed then
      let data := ext.inflate buf0
      if data.length ≠ h.DataSizeUncompressed then none
      else some (bufferCopy data h.DataSizeUncompressed 0 data.length)
    else some buf0
  match step with
  | none => (.DecompressFailure, none)
  | some buf =>
    if lazy then (.Success, some buf)
    else if h.HashType &&& EChunkHashFlags.RollingPoly64 = EChunkHashFlags.RollingPoly64
        ∧ toHex (ext.rollingHash buf) ≠ toHex h.RollingHash then
      (.HashCheckFailed, none)
    else if h.HashType &&& EChunkHashFlags.Sha1 = EChunkHashFlags.Sha1
        ∧ hexOfBytes (ext.sha1 buf) ≠ hexOfBytes h.SHAHash.bytes then
      (.HashCheckFailed, none)
    else (.Success, some buf)

/-- Models `FChunkHeader.load`: validate the header, read the payload,
decompress if stored compressed, and (unless lazy) run the flagged integrity
checks.  Returns the load result and the payload on success. -/
def FChunkHeader.load (h : FChunkHeader) (ar : FArchive) (lazy : Bool)
    (ext : Externals) : EChunkLoadResult × Option (List Nat) :=
  if !h.Guid.isValid then (.CorruptHeader, none)
  else if lazy = false ∧ h.HashType = EChunkHashFlags.None then (.MissingHashInfo, none)
  else
    let startPos := ar.tell
    let sizeLeft := ar.size - startPos
    if sizeLeft < h.DataSizeCompressed then (.IncorrectFileSize, none)
    else if h.StoredAs &&& EChunkStorageFlags.Encrypted = EChunkStorageFlags.Encrypted then
      (.UnsupportedStorage, none)
    else
      h.finish (ar.read h.DataSizeCompressed).1 lazy ext

/-- Models `ManifestOptions` as used by `FileChunkPart.loadData`: an optional
cache directory, an optional chunk base URI, and the lazy (verification
disabled) flag. -/
structure ManifestOptions where
  cacheDirectory : Option JStr
  chunkBaseUri : Option JStr
  lazy : Bool

/-- The local cache, modelling the filesystem as an association list from path
to file contents; `writeFileSync` prepends, `existsSync`/`readFileSync` are
`lookup`. -/
abbrev FileSystem := List (JStr × List Nat)

/-- Models `path.join(dir, filename)`. -/
def pathJoin (dir file : JStr) : JStr := dir ++ [47] ++ file

/-- Models `chunkBaseUri + (chunkBaseUri.endsWith("/") ? "" : "/") + Url`:
append a slash (code 47) unless the base already ends in one. -/
def joinUri (base url : JStr) : JStr :=
  base ++ (if base.getLastD 0 = 47 then [] else [47]) ++ url

/-- The errors `FileChunkPart.loadData` can throw: its own `Error`s, each
carrying the context its message interpolates (filename, expected vs. actual
value, status), plus the `ERR_OUT_OF_RANGE` range error `Buffer.copy` raises
when the copy's source start lies past the source end. -/
inductive ChunkError where
  | hashMismatch (filename : JStr) (actualHex expectedHex : JStr)
  | shaMismatch (filename : JStr) (actualHex : JStr) (expectedHex : Option JStr)
  | missingBaseUri
  | httpStatus (filename : JStr) (status : Nat)
  | magicMismatch (filename : JStr) (actualHex expectedHex : JStr)
  | loadFailed (filename : JStr) (result : EChunkLoadResult)
  | rangeError (sourceStart : Nat) (sourceLength : Nat)
deriving DecidableEq

/-- The fields of `FileChunkPart` that `loadData` consumes: the requested
`(Offset, Size)` window, the manifest's expected rolling hash (already
hex-rendered) and SHA digest (hex, absent when lazy), and the derived cache
filename and remote URL suffix. -/
structure FileChunkPart where
  Guid : JStr
  Offset : Nat
  Size : Nat
  Hash : JStr
  Sha : Option JStr
  DataGroup : JStr
  Filename : JStr
  Url : JStr

deriving instance DecidableEq for Except

/-- The outcome of one `loadData` call: the returned buffer or the thrown
error, the filesystem after the call, and how many network requests were
issued. -/
structure LoadOutcome where
  result : Except ChunkError (List Nat)
  fs : FileSystem
  requests : Nat

/-- The common tail of `loadData`: `Buffer.alloc(this.Size)` followed by
`data.copy(result, 0, this.Offset, this.Offset + this.Size)`.  The copy throws
a range error when `Offset` lies past the end of the payload and the requested
window is non-empty; otherwise the window, truncated at the payload end over
the zero fill, is returned. -/
def FileChunkPart.slice (self : FileChunkPart) (data : List Nat) (fs : FileSystem)
    (requests : Nat) : LoadOutcome :=
  match bufferCopyChecked data self.Size self.Offset (self.Offset + self.Size) with
  | some result => { result := .ok result, fs := fs, requests := requests }
  | none =>
    { result := .error (.rangeError self.Offset data.length), fs := fs, requests := requests }

/-- Models `FileChunkPart.loadData`: prefer the cached file (re-verifying the
raw cached bytes against the manifest's expected hashes unless lazy), else
fetch the wire container from the network, decode and load it through
`FChunkHeader`, cache the payload, and finally slice the requested
`[Offset, Offset + Size)` window out of the full payload. -/
def FileChunkPart.loadData (self : FileChunkPart) (opts : ManifestOptions)
    (fs : FileSystem) (net : JStr → Nat × List Nat) (ext : Externals) : LoadOutcome :=
  let path : Option JStr := opts.cacheDirectory.map (fun d => pathJoin d self.Filename)
  let cached : Option (List Nat) :=
    match path with
    | some p => fs.lookup p
    | none => none
  match cached with
  | some data =>
    -- cache hit: the file's raw bytes are the already-validated payload
    if opts.lazy = false then
      let hash := toHex (ext.rollingHash data)
      if hash ≠ self.Hash then
        { result := .error (.hashMismatch self.Filename hash self.Hash),
          fs := fs, requests := 0 }
      else
        let sha := hexOfBytes (ext.sha1 data)
        if some sha ≠ self.Sha then
          { result := .error (.shaMismatch self.Filename sha self.Sha),
            fs := fs, requests := 0 }
        else
          self.slice data fs 0
    else
      self.slice data fs 0
  | none =>
    -- cache miss: exactly one network request
    match opts.chunkBaseUri with
    | none => { result := .error .missingBaseUri, fs := fs, requests := 0 }
    | some base =>
      let uri := joinUri base self.Url
      let (status, content) := net uri
      if status ≠ 200 then
        { result := .error (.httpStatus self.Filename status), fs := fs, requests := 1 }
      else
        let ar : FArchive := { data := content, pos := 0 }
        let (magic, _) := ar.readUInt32
        if magic ≠ FChunkHeader.MAGIC then
          { result := .error (.magicMismatch self.Filename (toHex magic) (toHex FChunkHeader.MAGIC)),
            fs := fs, requests := 1 }
        else
          let (header, ar1) := FChunkHeader.decode (ar.seek 0) opts.lazy
          let (st, buf) := header.load ar1 opts.lazy ext
          if st ≠ .Success then
            { result := .error (.loadFailed self.Filename st), fs := fs, requests := 1 }
          else
            let data := buf.getD []
            let fs2 := match path with
              | some p => (p, data) :: fs
              | none => fs
            self.slice data fs2 1

/-- A well-formed version-3 wire container used as a concrete test vector: a
66-byte header (magic, version 3, header size 66, compressed size 2, non-zero
GUID, zero rolling hash, storage none, zero digest, hash type rolling-only)
followed by the two payload bytes `[7, 9]`. -/
def exBytes : List Nat :=
  [0xA2, 0x3A, 0xFE, 0xB1] ++ [3, 0, 0, 0] ++ [66, 0, 0, 0] ++ [2, 0, 0, 0] ++
  (1 :: List.replicate 15 0) ++ List.replicate 8 0 ++ [0] ++
  List.replicate 20 0 ++ [1] ++ [2, 0, 0, 0] ++ [7, 9]

/-- Concrete externals for test vectors: identity inflate, the little-endian
byte value as the rolling hash, the first twenty bytes as the digest. -/
def extEx : Externals where
  inflate := fun l => l
  rollingHash := fun l => Nat.ofDigits 256 l
  sha1 := fun l => l.take 20

/-- A concrete header whose hash type has both flags set, matching the payload
`[7, 9]` (rolling hash `7 + 256 * 9 = 2311`, digest `[7, 9]`). -/
def hdrC1 : FChunkHeader where
  Version := 2
  HeaderSize := 62
  Guid := { A := 1 }
  DataSizeCompressed := 2
  DataSizeUncompressed := 1024 * 1024
  StoredAs := 0
  HashType := 3
  RollingHash := 2311
  SHAHash := { bytes := [7, 9] }

/-- A concrete uncompressed header whose compressed size (1) differs from its
uncompressed size (1 MiB). -/
def hdrC2 : FChunkHeader where
  Version := 3
  HeaderSize := 66
  Guid := { A := 1 }
  DataSizeCompressed := 1
  DataSizeUncompressed := 1024 * 1024
  StoredAs := 0
  HashType := 1
  RollingHash := 0
  SHAHash := {}

/-- A concrete chunk part requesting the whole 2-byte payload. -/
def partEx : FileChunkPart where
  Guid := [103]
  Offset := 0
  Size := 2
  Hash := toHex 0
  Sha := some (hexOfBytes (List.replicate 20 0))
  DataGroup := [48, 48]
  Filename := [102]
  Url := [48, 48, 47, 102]

/-- A concrete chunk part whose expected rolling hash is `toHex 9` (its cached
bytes below hash to 5 instead). -/
def partEx8 : FileChunkPart where
  Guid := [103]
  Offset := 0
  Size := 1
  Hash := toHex 9
  Sha := some (hexOfBytes [5])
  DataGroup := [48, 48]
  Filename := [102]
  Url := [48, 48, 47, 102]

/-- A concrete chunk part whose window `[1, 5)` overruns the 2-byte payload. -/
def partEx10 : FileChunkPart where
  Guid := [103]
  Offset := 1
  Size := 4
  Hash := toHex 0
  Sha := some (hexOfBytes (List.replicate 20 0))
  DataGroup := [48, 48]
  Filename := [102]
  Url := [48, 48, 47, 102]

/-- A concrete chunk part whose window `[3, 5)` starts past the end of the
2-byte payload, so the copy's source start exceeds the source length. -/
def partEx10b : FileChunkPart where
  Guid := [103]
  Offset := 3
  Size := 2
  Hash := toHex 0
  Sha := some (hexOfBytes (List.replicate 20 0))
  DataGroup := [48, 48]
  Filename := [102]
  Url := [48, 48, 47, 102]

/-- Concrete options: cache at directory `[99]`, base URI ending in a slash,
verification disabled. -/
def optsLazy : ManifestOptions where
  cacheDirectory := some [99]
  chunkBaseUri := some [104, 47]
  lazy := true

/-- Concrete options: cache at directory `[99]`, base URI ending in a slash,
verification enabled. -/
def optsStrict : ManifestOptions where
  cacheDirectory := some [99]
  chunkBaseUri := some [104, 47]
  lazy := false

/-- A network that always serves the test container. -/
def netEx : JStr → Nat × List Nat := fun _ => (200, exBytes)

/-- A cache that already holds the test payload under the derived path. -/
def fsHit : FileSystem := [(pathJoin [99] [102], [7, 9])]

/-- A cache whose entry for the derived path holds the single byte 5. -/
def fsHit8 : FileSystem := [(pathJoin [99] [102], [5])]

/-- The magic word as it stands in the wire bytes: the little-endian 32-bit
value at the decode start position. -/
def wireMagic (ar : FArchive) : Nat := Nat.ofDigits 256 ((ar.data.drop ar.pos).take 4)

/-- The version field as it stands in the wire bytes (offset 4). -/
def wireVersion (ar : FArchive) : Nat := Nat.ofDigits 256 ((ar.data.drop (ar.pos + 4)).take 4)

/-- The header-size field as it stands in the wire bytes (offset 8). -/
def wireHeaderSize (ar : FArchive) : Nat := Nat.ofDigits 256 ((ar.data.drop (ar.pos + 8)).take 4)

/-- The conditions under which header decoding succeeds: enough bytes for the
smallest version, the magic matches, and each version-gated field set that the
declared version calls for fits in the remaining bytes (when it does, the
consumed-byte count automatically equals that version's fixed size). -/
def decodeOk (ar : FArchive) : Prop :=
  41 ≤ ar.data.length - ar.pos ∧ wireMagic ar = FChunkHeader.MAGIC ∧
  (EChunkVersion.StoresShaAndHashType ≤ wireVersion ar → 62 ≤ ar.data.length - ar.pos) ∧
  (EChunkVersion.StoresDataSizeUncompressed ≤ wireVersion ar → 66 ≤ ar.data.length - ar.pos)

instance (ar : FArchive) : Decidable (decodeOk ar) := by
  unfold decodeOk
  infer_instance

section Lemmas

theorem sizes_original : ChunkHeaderVersionSizes EChunkVersion.Original = 41 := rfl

theorem sizes_sha : ChunkHeaderVersionSizes EChunkVersion.StoresShaAndHashType = 62 := rfl

theorem sizes_dsu : ChunkHeaderVersionSizes EChunkVersion.StoresDataSizeUncompressed = 66 := rfl

theorem sizes_one : ChunkHeaderVersionSizes 1 = 41 := rfl

theorem sizes_two : ChunkHeaderVersionSizes 2 = 62 := rfl

theorem sizes_three : ChunkHeaderVersionSizes 3 = 66 := rfl

/-- The hex rendering of an integer is injective (hex-normalized comparison of
values is value comparison). -/
theorem toHex_inj {a b : Nat} : toHex a = toHex b ↔ a = b := Nat.digits_inj_iff

/-- The two-digits-per-byte hex rendering of a byte string is injective. -/
theorem hexOfBytes_inj {l1 l2 : List Nat} : hexOfBytes l1 = hexOfBytes l2 ↔ l1 = l2 := by
  constructor
  · intro h
    induction l1 generalizing l2 with
    | nil =>
      cases l2 with
      | nil => rfl
      | cons b t => simp [hexOfBytes] at h
    | cons a t ih =>
      cases l2 with
      | nil => simp [hexOfBytes] at h
      | cons b t2 =>
        simp only [hexOfBytes, List.flatMap_cons, List.cons_append, List.nil_append,
          List.cons.injEq] at h
        obtain ⟨h1, h2, h3⟩ := h
        have hab : a = b := by omega
        subst hab
        exact congrArg (a :: ·) (ih h3)
  · intro h; rw [h]

/-- The buffer produced by alloc-then-copy always has the allocated length. -/
theorem bufferCopy_length (s : List Nat) (t a b : Nat) : (bufferCopy s t a b).length = t := by
  simp [bufferCopy]

/-- Copying a whole source into a target allocated at exactly its size
reproduces the source. -/
theorem bufferCopy_full {l : List Nat} {n : Nat} (h : l.length = n) :
    bufferCopy l n 0 l.length = l := by
  subst h; simp [bufferCopy]

theorem take_add_drop (l : List Nat) (n m : Nat) : (l.take (n + m)).drop n = (l.drop n).take m := by
  rw [List.drop_take]; simp

/-- In-bounds slicing: when the requested window fits in the source, the
alloc-then-copy result is exactly the window. -/
theorem bufferCopy_of_le {s : List Nat} {t o : Nat} (h : o + t ≤ s.length) :
    bufferCopy s t o (o + t) = (s.drop o).take t := by
  have hmin : min (o + t) s.length = o + t := by omega
  have hlen : (((s.take (o + t)).drop o).take t).length = t := by
    simp; omega
  simp only [bufferCopy, hmin, take_add_drop, List.take_take, min_self, hlen]
  have hz : t - t ⊓ (s.length - o) = 0 := by omega
  simp [hz]

/-- Out-of-bounds slicing: when the requested window overruns the source, the
copy is truncated at the end of the source and the zero fill shows through. -/
theorem bufferCopy_of_gt {s : List Nat} {t o : Nat} (h : s.length < o + t) :
    bufferCopy s t o (o + t) = (s.drop o).take t ++ List.replicate (t - (s.length - o)) 0 := by
  have hmin : min (o + t) s.length = s.length := by omega
  have hlen : ((s.drop o).take t).length = s.length - o := by
    simp; omega
  simp only [bufferCopy, hmin, List.take_length, hlen]

end Lemmas

section DecodeLemmas

/-- Decoding with fewer bytes than the smallest version's fixed size fails
immediately, leaving the default header and an untouched archive. -/
theorem decode_too_short {ar : FArchive} (lazy : Bool) (h41 : ar.data.length - ar.pos < 41) :
    FChunkHeader.decode ar lazy = (FChunkHeader.default, ar) := by
  simp [FChunkHeader.decode, FArchive.tell, FArchive.size, sizes_original, h41]

/-- Decoding with a wrong magic word resets the header to defaults. -/
theorem decode_bad_magic {ar : FArchive} (lazy : Bool) (h41 : 41 ≤ ar.data.length - ar.pos)
    (hm : wireMagic ar ≠ FChunkHeader.MAGIC) :
    (FChunkHeader.decode ar lazy).1 = FChunkHeader.default := by
  simp only [wireMagic] at hm
  simp [FChunkHeader.decode, FArchive.tell, FArchive.size, sizes_original, sizes_sha, sizes_dsu, sizes_one, sizes_two, sizes_three,
    FArchive.readUInt32, FArchive.readUInt64, FArchive.readUInt8, FGuid.read, FSHAHash.read,
    FSHAHash.SIZE, FArchive.skip, FArchive.seek, Nat.not_lt.mpr h41, hm]

/-- Decoding a version-2-or-later header with fewer bytes than the version-2
fixed size resets the header to defaults. -/
theorem decode_v2_short {ar : FArchive} (lazy : Bool) (h41 : 41 ≤ ar.data.length - ar.pos)
    (hm : wireMagic ar = FChunkHeader.MAGIC) (h2 : 2 ≤ wireVersion ar)
    (h62 : ar.data.length - ar.pos < 62) :
    (FChunkHeader.decode ar lazy).1 = FChunkHeader.default := by
  simp only [wireMagic] at hm
  simp only [wireVersion] at h2
  cases lazy <;>
    simp [FChunkHeader.decode, FArchive.tell, FArchive.size, sizes_original, sizes_sha, sizes_dsu, sizes_one, sizes_two, sizes_three,
      FArchive.readUInt32, FArchive.readUInt64, FArchive.readUInt8, FGuid.read, FSHAHash.read,
      FSHAHash.SIZE, FArchive.skip, FArchive.seek, Nat.not_lt.mpr h41, hm, h2,
      Nat.not_le.mpr h62,
      EChunkVersion.StoresShaAndHashType, EChunkVersion.StoresDataSizeUncompressed]

/-- Decoding a version-3-or-later header with fewer bytes than the version-3
fixed size resets the header to defaults. -/
theorem decode_v3_short {ar : FArchive} (lazy : Bool) (h41 : 41 ≤ ar.data.length - ar.pos)
    (hm : wireMagic ar = FChunkHeader.MAGIC) (h3 : 3 ≤ wireVersion ar)
    (h62 : 62 ≤ ar.data.length - ar.pos) (h66 : ar.data.length - ar.pos < 66) :
    (FChunkHeader.decode ar lazy).1 = FChunkHeader.default := by
  simp only [wireMagic] at hm
  have h2 : 2 ≤ wireVersion ar := by omega
  simp only [wireVersion] at h2 h3
  cases lazy <;>
    simp [FChunkHeader.decode, FArchive.tell, FArchive.size, sizes_original, sizes_sha, sizes_dsu, sizes_one, sizes_two, sizes_three,
      FArchive.readUInt32, FArchive.readUInt64, FArchive.readUInt8, FGuid.read, FSHAHash.read,
      FSHAHash.SIZE, FArchive.skip, FArchive.seek, Nat.not_lt.mpr h41, hm, h2, h3, h62,
      Nat.not_le.mpr h66,
      EChunkVersion.StoresShaAndHashType, EChunkVersion.StoresDataSizeUncompressed]

/-- On any successful decode the returned archive is the input sought to
`start + HeaderSize` (the decoded header-size field). -/
theorem decode_ok_snd {ar : FArchive} (lazy : Bool) (hok : decodeOk ar) :
    (FChunkHeader.decode ar lazy).2 = ar.seek (ar.pos + wireHeaderSize ar) := by
  obtain ⟨h41, hm, h62, h66⟩ := hok
  simp only [EChunkVersion.StoresShaAndHashType, EChunkVersion.StoresDataSizeUncompressed]
    at h62 h66
  simp only [wireMagic] at hm
  have e1 : ar.pos + 4 + 4 + 4 + 4 + 4 + 4 + 4 + 4 + 8 + 1 - ar.pos = 41 := by omega
  have e2 : ar.pos + 4 + 4 + 4 + 4 + 4 + 4 + 4 + 4 + 8 + 1 + 20 + 1 - ar.pos = 62 := by omega
  have e3 : ar.pos + 4 + 4 + 4 + 4 + 4 + 4 + 4 + 4 + 8 + 1 + 20 + 1 + 4 - ar.pos = 66 := by omega
  have e8 : ar.pos + 4 + 4 = ar.pos + 8 := by omega
  rcases Nat.lt_or_ge (wireVersion ar) 2 with hv | hv
  · have hv2 : ¬ (2 ≤ wireVersion ar) := by omega
    have hv3 : ¬ (3 ≤ wireVersion ar) := by omega
    simp only [wireVersion] at hv2 hv3
    cases lazy <;>
      simp [FChunkHeader.decode, FArchive.tell, FArchive.size, sizes_original, sizes_sha,
        sizes_dsu, sizes_one, sizes_two, sizes_three, FArchive.readUInt32, FArchive.readUInt64, FArchive.readUInt8, FGuid.read,
        FSHAHash.read, FSHAHash.SIZE, FArchive.skip, FArchive.seek, Nat.not_lt.mpr h41, hm,
        hv2, hv3, EChunkVersion.StoresShaAndHashType, EChunkVersion.StoresDataSizeUncompressed,
        e1, e8, wireHeaderSize]
  · rcases Nat.lt_or_ge (wireVersion ar) 3 with hv3 | hv3
    · have hs62 : 62 ≤ ar.data.length - ar.pos := h62 hv
      have hv3' : ¬ (3 ≤ wireVersion ar) := by omega
      simp only [wireVersion] at hv hv3'
      cases lazy <;>
        simp [FChunkHeader.decode, FArchive.tell, FArchive.size, sizes_original, sizes_sha,
          sizes_dsu, sizes_one, sizes_two, sizes_three, FArchive.readUInt32, FArchive.readUInt64, FArchive.readUInt8, FGuid.read,
          FSHAHash.read, FSHAHash.SIZE, FArchive.skip, FArchive.seek, Nat.not_lt.mpr h41, hm,
          hv, hv3', EChunkVersion.StoresShaAndHashType, EChunkVersion.StoresDataSizeUncompressed,
          hs62, e2, e8, wireHeaderSize]
    · have hs62 : 62 ≤ ar.data.length - ar.pos := h62 hv
      have hs66 : 66 ≤ ar.data.length - ar.pos := h66 hv3
      have hv2 : 2 ≤ wireVersion ar := hv
      simp only [wireVersion] at hv2 hv3
      cases lazy <;>
        simp [FChunkHeader.decode, FArchive.tell, FArchive.size, sizes_original, sizes_sha,
          sizes_dsu, sizes_one, sizes_two, sizes_three, FArchive.readUInt32, FArchive.readUInt64, FArchive.readUInt8, FGuid.read,
          FSHAHash.read, FSHAHash.SIZE, FArchive.skip, FArchive.seek, Nat.not_lt.mpr h41, hm,
          hv2, hv3, EChunkVersion.StoresShaAndHashType, EChunkVersion.StoresDataSizeUncompressed,
          hs62, hs66, e3, e8, wireHeaderSize]

/-- On a lazy decode the hash-bearing fields are never decoded: whatever the
input bytes, they hold the class defaults (this also holds on failure, where
all fields are reset). -/
theorem decode_lazy_hash_fields (ar : FArchive) :
    ((FChunkHeader.decode ar true).1).RollingHash = 0 ∧
    ((FChunkHeader.decode ar true).1).SHAHash = { bytes := List.replicate 20 0 } ∧
    ((FChunkHeader.decode ar true).1).HashType = EChunkHashFlags.RollingPoly64 := by
  simp only [FChunkHeader.decode]
  split_ifs <;>
    simp_all [FChunkHeader.default, FArchive.readUInt32, FArchive.readUInt64, FArchive.readUInt8,
      FGuid.read, FSHAHash.read, FSHAHash.SIZE, FArchive.skip, FArchive.seek, FArchive.tell,
      FArchive.size]

end DecodeLemmas

section LoadLemmas

/-- Hex-normalized comparison decides value inequality. -/
theorem toHex_ne {a b : Nat} : toHex a ≠ toHex b ↔ a ≠ b := not_congr toHex_inj

/-- Byte-string hex comparison decides byte-string inequality. -/
theorem hexOfBytes_ne {l1 l2 : List Nat} : hexOfBytes l1 ≠ hexOfBytes l2 ↔ l1 ≠ l2 :=
  not_congr hexOfBytes_inj

/-- A copy whose source start is within the source never throws. -/
theorem bufferCopyChecked_of_start_le {source : List Nat} {t s e : Nat}
    (h : s ≤ source.length) :
    bufferCopyChecked source t s e = some (bufferCopy source t s e) := by
  unfold bufferCopyChecked
  by_cases h1 : t = 0 ∨ e ≤ s
  · rw [if_pos h1]
  · rw [if_neg h1, if_neg (by omega)]

/-- A non-empty copy whose source start lies strictly past the source end
throws the range error. -/
theorem bufferCopyChecked_none {source : List Nat} {t s e : Nat}
    (ht : 0 < t) (hse : s < e) (h : source.length < s) :
    bufferCopyChecked source t s e = none := by
  unfold bufferCopyChecked
  rw [if_neg (by omega), if_pos h]

/-- Whenever the checked copy returns a buffer, it is the clamped copy. -/
theorem bufferCopyChecked_some {source : List Nat} {t s e : Nat} {b : List Nat}
    (h : bufferCopyChecked source t s e = some b) :
    b = bufferCopy source t s e := by
  unfold bufferCopyChecked at h
  split_ifs at h <;> simp_all

/-- The slice step never touches the filesystem. -/
theorem slice_fs (self : FileChunkPart) (data : List Nat) (fs : FileSystem) (r : Nat) :
    (self.slice data fs r).fs = fs := by
  unfold FileChunkPart.slice
  split <;> rfl

/-- The slice step issues no requests of its own. -/
theorem slice_requests (self : FileChunkPart) (data : List Nat) (fs : FileSystem) (r : Nat) :
    (self.slice data fs r).requests = r := by
  unfold FileChunkPart.slice
  split <;> rfl

/-- A slice whose window starts within the payload (or is empty) succeeds with
the clamped copy. -/
theorem slice_ok {self : FileChunkPart} {data : List Nat} (fs : FileSystem) (r : Nat)
    (h : self.Offset ≤ data.length ∨ self.Size = 0) :
    self.slice data fs r =
      { result := .ok (bufferCopy data self.Size self.Offset (self.Offset + self.Size)),
        fs := fs, requests := r } := by
  have hc : bufferCopyChecked data self.Size self.Offset (self.Offset + self.Size) =
      some (bufferCopy data self.Size self.Offset (self.Offset + self.Size)) := by
    rcases h with h | h
    · exact bufferCopyChecked_of_start_le h
    · unfold bufferCopyChecked
      rw [if_pos (Or.inl h)]
  unfold FileChunkPart.slice
  rw [hc]

/-- A non-empty slice whose window starts past the payload end throws the
range error. -/
theorem slice_err {self : FileChunkPart} {data : List Nat} (fs : FileSystem) (r : Nat)
    (ht : 0 < self.Size) (h : data.length < self.Offset) :
    self.slice data fs r =
      { result := .error (.rangeError self.Offset data.length), fs := fs, requests := r } := by
  have hc : bufferCopyChecked data self.Size self.Offset (self.Offset + self.Size) = none :=
    bufferCopyChecked_none ht (by omega) h
  unfold FileChunkPart.slice
  rw [hc]

/-- Every buffer the slice step returns is the clamped copy of the payload. -/
theorem slice_result_ok {self : FileChunkPart} {data b : List Nat} {fs : FileSystem} {r : Nat}
    (h : (self.slice data fs r).result = .ok b) :
    b = bufferCopy data self.Size self.Offset (self.Offset + self.Size) := by
  unfold FileChunkPart.slice at h
  split at h
  next res heq =>
    have hres := bufferCopyChecked_some heq
    simp at h
    rw [← h]
    exact hres
  next heq => simp at h

/-- Every buffer a cache-hit `loadData` returns is the requested window sliced
from the cached bytes. -/
theorem loadData_hit_ok {self : FileChunkPart} {opts : ManifestOptions} {fs : FileSystem}
    {net : JStr → Nat × List Nat} {ext : Externals} {d : JStr} {data b : List Nat}
    (hd : opts.cacheDirectory = some d)
    (hdata : fs.lookup (pathJoin d self.Filename) = some data)
    (hok : (self.loadData opts fs net ext).result = .ok b) :
    b = bufferCopy data self.Size self.Offset (self.Offset + self.Size) := by
  simp only [FileChunkPart.loadData, hd, Option.map_some] at hok
  split at hok
  next data' heq =>
    have heq' : fs.lookup (pathJoin d self.Filename) = some data' := by simpa using heq
    rw [hdata] at heq'
    injection heq' with h'
    subst h'
    split_ifs at hok <;> exact slice_result_ok hok
  next heq =>
    have heq' : fs.lookup (pathJoin d self.Filename) = none := by simpa using heq
    rw [hdata] at heq'
    cases heq'

/-- Every buffer a cache-miss `loadData` returns is the requested window sliced
from some full payload, and that payload is what was written to the cache. -/
theorem loadData_miss_ok {self : FileChunkPart} {opts : ManifestOptions} {fs : FileSystem}
    {net : JStr → Nat × List Nat} {ext : Externals} {d : JStr} {b : List Nat}
    (hd : opts.cacheDirectory = some d)
    (hmiss : fs.lookup (pathJoin d self.Filename) = none)
    (hok : (self.loadData opts fs net ext).result = .ok b) :
    ∃ data, b = bufferCopy data self.Size self.Offset (self.Offset + self.Size) ∧
      (self.loadData opts fs net ext).fs = (pathJoin d self.Filename, data) :: fs := by
  simp only [FileChunkPart.loadData, hd, Option.map_some] at hok ⊢
  split at hok
  next data' heq =>
    have heq' : fs.lookup (pathJoin d self.Filename) = some data' := by simpa using heq
    rw [hmiss] at heq'
    cases heq'
  next heq =>
    clear heq
    cases hbase : opts.chunkBaseUri with
    | none => rw [hbase] at hok; simp at hok
    | some base =>
      rw [hbase] at hok
      simp only [ne_eq, ite_not, Option.map_some] at hok
      split at hok
      next hs =>
        split at hok
        next hmagic =>
          split at hok
          next hsucc =>
            exact ⟨_, slice_result_ok hok,
              by simp [hmiss, hbase, hs, hmagic, hsucc, ne_eq, ite_not, Option.map_some,
                slice_fs]⟩
          next hsucc => simp at hok
        next hmagic => simp at hok
      next hs => simp at hok

/-- The full outcome of `loadData` on a cache hit: verify the cached bytes
against the expected hashes (unless lazy) and slice, touching neither the
filesystem nor the network. -/
theorem loadData_hit_eq {self : FileChunkPart} {opts : ManifestOptions} {fs : FileSystem}
    {net : JStr → Nat × List Nat} {ext : Externals} {d : JStr} {data : List Nat}
    (hd : opts.cacheDirectory = some d)
    (hdata : fs.lookup (pathJoin d self.Filename) = some data) :
    self.loadData opts fs net ext =
      (if opts.lazy = false then
        if toHex (ext.rollingHash data) ≠ self.Hash then
          { result := .error (.hashMismatch self.Filename (toHex (ext.rollingHash data)) self.Hash),
            fs := fs, requests := 0 }
        else if some (hexOfBytes (ext.sha1 data)) ≠ self.Sha then
          { result := .error (.shaMismatch self.Filename (hexOfBytes (ext.sha1 data)) self.Sha),
            fs := fs, requests := 0 }
        else
          self.slice data fs 0
      else
        self.slice data fs 0) := by
  simp only [FileChunkPart.loadData, hd, Option.map_some]
  split
  next data' heq =>
    have heq' : fs.lookup (pathJoin d self.Filename) = some data' := by simpa using heq
    rw [hdata] at heq'
    injection heq' with h'
    subst h'
    rfl
  next heq =>
    have heq' : fs.lookup (pathJoin d self.Filename) = none := by simpa using heq
    rw [hdata] at heq'
    cases heq'

end LoadLemmas

section Claims

/-- C1: for a chunk header decoded with verification enabled whose `HashType`
has both the rolling-hash flag and the SHA-1 flag set, `load` dispatches both
integrity checks over the final payload bytes: a mismatch in either one —
including when only one of the two hash types is wrong — makes `load` return
`HashCheckFailed`, and only agreement of both yields `Success`. -/
theorem C1_dual_hash_checks (h : FChunkHeader) (ar : FArchive) (ext : Externals)
    (buf : List Nat)
    (hguid : h.Guid.isValid = true)
    (hroll : h.HashType &&& EChunkHashFlags.RollingPoly64 = EChunkHashFlags.RollingPoly64)
    (hsha : h.HashType &&& EChunkHashFlags.Sha1 = EChunkHashFlags.Sha1)
    (hsize : h.DataSizeCompressed ≤ ar.data.length - ar.pos)
    (henc : h.StoredAs &&& EChunkStorageFlags.Encrypted ≠ EChunkStorageFlags.Encrypted)
    (hinf : h.StoredAs &&& EChunkStorageFlags.Compressed = EChunkStorageFlags.Compressed →
      (ext.inflate (ar.read h.DataSizeCompressed).1).length = h.DataSizeUncompressed)
    (hbuf : buf = if h.StoredAs &&& EChunkStorageFlags.Compressed = EChunkStorageFlags.Compressed
      then ext.inflate (ar.read h.DataSizeCompressed).1 else (ar.read h.DataSizeCompressed).1) :
    ((ext.rollingHash buf ≠ h.RollingHash ∨ ext.sha1 buf ≠ h.SHAHash.bytes) →
      h.load ar false ext = (.HashCheckFailed, none)) ∧
    (ext.rollingHash buf = h.RollingHash → ext.sha1 buf = h.SHAHash.bytes →
      h.load ar false ext = (.Success, some buf)) := by
  have hht : ¬ (h.HashType = EChunkHashFlags.None) := by
    simp only [EChunkHashFlags.RollingPoly64] at hroll
    simp only [EChunkHashFlags.None]
    intro h0
    rw [h0] at hroll
    simp at hroll
  have hload : h.load ar false ext = h.finish (ar.read h.DataSizeCompressed).1 false ext := by
    simp [FChunkHeader.load, FArchive.tell, FArchive.size, hguid, hht, Nat.not_lt.mpr hsize, henc]
  rw [hload]
  by_cases hc : h.StoredAs &&& EChunkStorageFlags.Compressed = EChunkStorageFlags.Compressed
  · have hlen := hinf hc
    have hfull : bufferCopy (ext.inflate (ar.read h.DataSizeCompressed).1)
        h.DataSizeUncompressed 0 h.DataSizeUncompressed
        = ext.inflate (ar.read h.DataSizeCompressed).1 := by
      have hb := bufferCopy_full hlen
      rwa [hlen] at hb
    rw [if_pos hc] at hbuf
    subst hbuf
    constructor
    · rintro (hne | hne)
      · simp [FChunkHeader.finish, hc, hlen, hfull, hroll, toHex_ne, hne]
      · by_cases hr : ext.rollingHash (ext.inflate (ar.read h.DataSizeCompressed).1) = h.RollingHash
        · simp [FChunkHeader.finish, hc, hlen, hfull, hroll, hsha, toHex_ne, hexOfBytes_ne, hr, hne]
        · simp [FChunkHeader.finish, hc, hlen, hfull, hroll, toHex_ne, hr]
    · intro hr hs
      simp [FChunkHeader.finish, hc, hlen, hfull, hroll, hsha, toHex_ne, hexOfBytes_ne, hr, hs]
  · rw [if_neg hc] at hbuf
    subst hbuf
    constructor
    · rintro (hne | hne)
      · simp [FChunkHeader.finish, hc, hroll, toHex_ne, hne]
      · by_cases hr : ext.rollingHash (ar.read h.DataSizeCompressed).1 = h.RollingHash
        · simp [FChunkHeader.finish, hc, hroll, hsha, toHex_ne, hexOfBytes_ne, hr, hne]
        · simp [FChunkHeader.finish, hc, hroll, toHex_ne, hr]
    · intro hr hs
      simp [FChunkHeader.finish, hc, hroll, hsha, toHex_ne, hexOfBytes_ne, hr, hs]

/-- C1 witness: the dual-hash theorem applied to the concrete header `hdrC1`
over the payload `[7, 9]`, where both checks agree, so `load` succeeds. -/
theorem C1_dual_hash_checks_witness :
    FChunkHeader.load hdrC1 ⟨[7, 9], 0⟩ false extEx = (.Success, some [7, 9]) :=
  (C1_dual_hash_checks hdrC1 ⟨[7, 9], 0⟩ extEx [7, 9] (by decide) (by decide) (by decide)
    (by decide) (by decide) (by decide) (by decide)).2 (by decide) (by decide)

/-- C2 counterexample: `load` reaches `Success` on an uncompressed chunk whose
payload has length `DataSizeCompressed = 1`, different from its
`DataSizeUncompressed = 1 MiB`, refuting the claim that every Success payload
has length `DataSizeUncompressed`. -/
theorem C2_counterexample :
    FChunkHeader.load hdrC2 ⟨[42], 0⟩ true extEx = (.Success, some [42]) ∧
    ¬ (([42] : List Nat).length = hdrC2.DataSizeUncompressed) := by
  constructor
  · decide
  · decide

/-- C2 (amended): every payload `load` returns with `Success` has length
`DataSizeUncompressed` when the compressed storage flag is set, and length
`DataSizeCompressed` otherwise. -/
theorem C2_success_length (h : FChunkHeader) (ar : FArchive) (lazy : Bool) (ext : Externals)
    (buf : List Nat) (hload : h.load ar lazy ext = (.Success, some buf)) :
    buf.length =
      if h.StoredAs &&& EChunkStorageFlags.Compressed = EChunkStorageFlags.Compressed
      then h.DataSizeUncompressed else h.DataSizeCompressed := by
  unfold FChunkHeader.load at hload
  simp only [FArchive.tell, FArchive.size] at hload
  split_ifs at hload with hg hh hs he
  · simp at hload
  · simp at hload
  · simp at hload
  · simp at hload
  · unfold FChunkHeader.finish at hload
    split at hload
    next hc =>
      rw [if_pos hc]
      by_cases hlen :
          (ext.inflate (ar.read h.DataSizeCompressed).1).length = h.DataSizeUncompressed
      · have hbuf : bufferCopy (ext.inflate (ar.read h.DataSizeCompressed).1)
            h.DataSizeUncompressed 0 h.DataSizeUncompressed = buf := by
          simp [hlen] at hload
          split_ifs at hload <;> simp_all
        rw [← hbuf, bufferCopy_length]
      · simp [hlen] at hload
    next hc =>
      rw [if_neg hc]
      have hbuf : (ar.read h.DataSizeCompressed).1 = buf := by
        simp only [ne_eq] at hload
        split_ifs at hload <;> simp_all
      rw [← hbuf]
      simp only [FArchive.read, List.length_take, List.length_drop]
      omega

/-- C2 witness: the amended theorem applied to the concrete uncompressed header
`hdrC2`, whose Success payload `[42]` has length `DataSizeCompressed = 1`. -/
theorem C2_success_length_witness :
    ([42] : List Nat).length =
      if hdrC2.StoredAs &&& EChunkStorageFlags.Compressed = EChunkStorageFlags.Compressed
      then hdrC2.DataSizeUncompressed else hdrC2.DataSizeCompressed :=
  C2_success_length hdrC2 ⟨[42], 0⟩ true extEx [42] (by decide)

/-- C3: on every decode failure — too few bytes for the smallest version, a
magic mismatch, or a version-gated field set that does not fit the remaining
bytes (the consumed-byte-count check) — every header field is reset to its
version-`Latest` default and no field is left at a partially-read value. -/
theorem C3_reset_on_failure (ar : FArchive) (lazy : Bool)
    (hfail : ar.data.length - ar.pos < 41 ∨ wireMagic ar ≠ FChunkHeader.MAGIC ∨
      (EChunkVersion.StoresShaAndHashType ≤ wireVersion ar ∧ ar.data.length - ar.pos < 62) ∨
      (EChunkVersion.StoresDataSizeUncompressed ≤ wireVersion ar ∧
        ar.data.length - ar.pos < 66)) :
    (FChunkHeader.decode ar lazy).1.Version = EChunkVersion.Latest ∧
    (FChunkHeader.decode ar lazy).1.HeaderSize = ChunkHeaderVersionSizes EChunkVersion.Latest ∧
    (FChunkHeader.decode ar lazy).1.Guid = { A := 0, B := 0, C := 0, D := 0 } ∧
    (FChunkHeader.decode ar lazy).1.Guid.isValid = false ∧
    (FChunkHeader.decode ar lazy).1.DataSizeCompressed = 0 ∧
    (FChunkHeader.decode ar lazy).1.DataSizeUncompressed = 1024 * 1024 ∧
    (FChunkHeader.decode ar lazy).1.StoredAs = EChunkStorageFlags.None ∧
    (FChunkHeader.decode ar lazy).1.HashType = EChunkHashFlags.RollingPoly64 ∧
    (FChunkHeader.decode ar lazy).1.RollingHash = 0 ∧
    (FChunkHeader.decode ar lazy).1.SHAHash = { bytes := List.replicate 20 0 } := by
  have hd : (FChunkHeader.decode ar lazy).1 = FChunkHeader.default := by
    by_cases h41 : ar.data.length - ar.pos < 41
    · rw [decode_too_short lazy h41]
    · have h41' : 41 ≤ ar.data.length - ar.pos := Nat.le_of_not_lt h41
      by_cases hm : wireMagic ar = FChunkHeader.MAGIC
      · rcases hfail with h | h | ⟨h2, h62⟩ | ⟨h3, h66⟩
        · omega
        · exact absurd hm h
        · exact decode_v2_short lazy h41' hm h2 h62
        · have h3' : 3 ≤ wireVersion ar := h3
          by_cases h62' : ar.data.length - ar.pos < 62
          · exact decode_v2_short lazy h41' hm (by omega) h62'
          · exact decode_v3_short lazy h41' hm h3' (Nat.le_of_not_lt h62') h66
      · exact decode_bad_magic lazy h41' hm
  rw [hd]
  exact ⟨rfl, rfl, rfl, rfl, rfl, rfl, rfl, rfl, rfl, rfl⟩

/-- C3 witness: decoding a three-byte input (too short for any version) leaves
every field at its default. -/
theorem C3_reset_on_failure_witness :
    (FChunkHeader.decode ⟨[1, 2, 3], 0⟩ true).1.Version = EChunkVersion.Latest ∧
    (FChunkHeader.decode ⟨[1, 2, 3], 0⟩ true).1.HeaderSize =
      ChunkHeaderVersionSizes EChunkVersion.Latest ∧
    (FChunkHeader.decode ⟨[1, 2, 3], 0⟩ true).1.Guid = { A := 0, B := 0, C := 0, D := 0 } ∧
    (FChunkHeader.decode ⟨[1, 2, 3], 0⟩ true).1.Guid.isValid = false ∧
    (FChunkHeader.decode ⟨[1, 2, 3], 0⟩ true).1.DataSizeCompressed = 0 ∧
    (FChunkHeader.decode ⟨[1, 2, 3], 0⟩ true).1.DataSizeUncompressed = 1024 * 1024 ∧
    (FChunkHeader.decode ⟨[1, 2, 3], 0⟩ true).1.StoredAs = EChunkStorageFlags.None ∧
    (FChunkHeader.decode ⟨[1, 2, 3], 0⟩ true).1.HashType = EChunkHashFlags.RollingPoly64 ∧
    (FChunkHeader.decode ⟨[1, 2, 3], 0⟩ true).1.RollingHash = 0 ∧
    (FChunkHeader.decode ⟨[1, 2, 3], 0⟩ true).1.SHAHash = { bytes := List.replicate 20 0 } :=
  C3_reset_on_failure ⟨[1, 2, 3], 0⟩ true (Or.inl (by decide))

/-- C4: `load`'s result is decided by an ordered, first-match-wins taxonomy —
`CorruptHeader` for an invalid (zero) GUID; else `MissingHashInfo` when
verification is enabled and no hash type is recorded; else `IncorrectFileSize`
when the compressed size exceeds the remaining bytes (decided for every
archive with those bounds, before any payload byte is read); else
`UnsupportedStorage` when the encrypted flag is set; and only after all four
checks pass are exactly `DataSizeCompressed` payload bytes read. -/
theorem C4_result_taxonomy (h : FChunkHeader) (ar : FArchive) (lazy : Bool) (ext : Externals) :
    (h.Guid.isValid = false → h.load ar lazy ext = (.CorruptHeader, none)) ∧
    (h.Guid.isValid = true → lazy = false → h.HashType = EChunkHashFlags.None →
      h.load ar lazy ext = (.MissingHashInfo, none)) ∧
    (h.Guid.isValid = true → (lazy = true ∨ h.HashType ≠ EChunkHashFlags.None) →
      ar.data.length - ar.pos < h.DataSizeCompressed →
      h.load ar lazy ext = (.IncorrectFileSize, none)) ∧
    (h.Guid.isValid = true → (lazy = true ∨ h.HashType ≠ EChunkHashFlags.None) →
      h.DataSizeCompressed ≤ ar.data.length - ar.pos →
      h.StoredAs &&& EChunkStorageFlags.Encrypted = EChunkStorageFlags.Encrypted →
      h.load ar lazy ext = (.UnsupportedStorage, none)) ∧
    (h.Guid.isValid = true → (lazy = true ∨ h.HashType ≠ EChunkHashFlags.None) →
      h.DataSizeCompressed ≤ ar.data.length - ar.pos →
      h.StoredAs &&& EChunkStorageFlags.Encrypted ≠ EChunkStorageFlags.Encrypted →
      h.load ar lazy ext = h.finish ((ar.data.drop ar.pos).take h.DataSizeCompressed) lazy ext ∧
        ((ar.data.drop ar.pos).take h.DataSizeCompressed).length = h.DataSizeCompressed) := by
  refine ⟨?_, ?_, ?_, ?_, ?_⟩
  · intro hg
    simp [FChunkHeader.load, hg]
  · intro hg hlz hht
    simp [FChunkHeader.load, hg, hlz, hht]
  · intro hg hht hsz
    rcases hht with hlz | hht
    · simp [FChunkHeader.load, hg, hlz, FArchive.tell, FArchive.size, hsz]
    · simp [FChunkHeader.load, hg, hht, FArchive.tell, FArchive.size, hsz]
  · intro hg hht hsz henc
    rcases hht with hlz | hht
    · simp [FChunkHeader.load, hg, hlz, FArchive.tell, FArchive.size, Nat.not_lt.mpr hsz, henc]
    · simp [FChunkHeader.load, hg, hht, FArchive.tell, FArchive.size, Nat.not_lt.mpr hsz, henc]
  · intro hg hht hsz henc
    constructor
    · rcases hht with hlz | hht
      · simp [FChunkHeader.load, hg, hlz, FArchive.tell, FArchive.size, FArchive.read,
          Nat.not_lt.mpr hsz, henc]
      · simp [FChunkHeader.load, hg, hht, FArchive.tell, FArchive.size, FArchive.read,
          Nat.not_lt.mpr hsz, henc]
    · simp only [List.length_take, List.length_drop]
      omega

/-- C4 witness: the first taxon applied to the default header, whose zero GUID
is invalid, so `load` returns `CorruptHeader`. -/
theorem C4_result_taxonomy_witness :
    FChunkHeader.load FChunkHeader.default ⟨[], 0⟩ true extEx = (.CorruptHeader, none) :=
  (C4_result_taxonomy FChunkHeader.default ⟨[], 0⟩ true extEx).1 (by decide)

/-- C5: after every successful header decode the archive cursor stands at the
decode start position plus the decoded `HeaderSize` field, so the payload
begins exactly at the advertised offset. -/
theorem C5_cursor_invariant (ar : FArchive) (lazy : Bool) (hok : decodeOk ar) :
    ((FChunkHeader.decode ar lazy).2).pos = ar.pos + wireHeaderSize ar := by
  rw [decode_ok_snd lazy hok]
  rfl

/-- C5 witness: decoding the concrete version-3 container leaves the cursor at
position `0 + 66`, the decoded header size. -/
theorem C5_cursor_invariant_witness :
    ((FChunkHeader.decode ⟨exBytes, 0⟩ true).2).pos = 0 + wireHeaderSize ⟨exBytes, 0⟩ :=
  C5_cursor_invariant ⟨exBytes, 0⟩ true (by decide)

/-- C6: with verification disabled (lazy mode) no integrity check runs: the
hash-bearing header fields are skipped rather than decoded (they keep their
class defaults whatever the wire bytes hold), `load` returns `Success` for
every choice of hash functions — in particular when the recomputed digest or
rolling hash differs from the stored value — and a cache hit returns the
cached bytes without recomputing either check and without a network request. -/
theorem C6_lazy_no_verification :
    (∀ ar : FArchive,
      ((FChunkHeader.decode ar true).1).RollingHash = 0 ∧
      ((FChunkHeader.decode ar true).1).SHAHash = { bytes := List.replicate 20 0 } ∧
      ((FChunkHeader.decode ar true).1).HashType = EChunkHashFlags.RollingPoly64) ∧
    (∀ (h : FChunkHeader) (ar : FArchive) (ext : Externals),
      h.Guid.isValid = true →
      h.DataSizeCompressed ≤ ar.data.length - ar.pos →
      h.StoredAs &&& EChunkStorageFlags.Encrypted ≠ EChunkStorageFlags.Encrypted →
      (h.StoredAs &&& EChunkStorageFlags.Compressed = EChunkStorageFlags.Compressed →
        (ext.inflate (ar.read h.DataSizeCompressed).1).length = h.DataSizeUncompressed) →
      (h.load ar true ext).1 = .Success) ∧
    (∀ (self : FileChunkPart) (opts : ManifestOptions) (fs : FileSystem)
        (net : JStr → Nat × List Nat) (ext : Externals) (d : JStr) (data : List Nat),
      opts.lazy = true → opts.cacheDirectory = some d →
      fs.lookup (pathJoin d self.Filename) = some data →
      (self.loadData opts fs net ext).requests = 0 ∧
      (self.Offset + self.Size ≤ data.length →
        self.loadData opts fs net ext =
          { result := .ok (bufferCopy data self.Size self.Offset (self.Offset + self.Size)),
            fs := fs, requests := 0 })) := by
  refine ⟨decode_lazy_hash_fields, ?_, ?_⟩
  · intro h ar ext hg hsz henc hinf
    have hload : h.load ar true ext = h.finish (ar.read h.DataSizeCompressed).1 true ext := by
      simp [FChunkHeader.load, FArchive.tell, FArchive.size, hg, Nat.not_lt.mpr hsz, henc]
    rw [hload]
    by_cases hc : h.StoredAs &&& EChunkStorageFlags.Compressed = EChunkStorageFlags.Compressed
    · simp [FChunkHeader.finish, hc, hinf hc]
    · simp [FChunkHeader.finish, hc]
  · intro self opts fs net ext d data hlz hd hdata
    rw [loadData_hit_eq hd hdata, hlz]
    constructor
    · simp [slice_requests]
    · intro hbound
      have hsl := @slice_ok self data fs 0 (Or.inl (by omega))
      simp [hsl]

/-- C6 witness: the lazy-decode field part at an empty archive, and a concrete
lazy cache hit returning the cached payload untouched with zero requests. -/
theorem C6_lazy_no_verification_witness :
    ((FChunkHeader.decode ⟨[], 0⟩ true).1).RollingHash = 0 ∧
    partEx.loadData optsLazy fsHit netEx extEx =
      { result := .ok (bufferCopy [7, 9] partEx.Size partEx.Offset (partEx.Offset + partEx.Size)),
        fs := fsHit, requests := 0 } :=
  ⟨(C6_lazy_no_verification.1 ⟨[], 0⟩).1,
   (C6_lazy_no_verification.2.2 partEx optsLazy fsHit netEx extEx [99] [7, 9] rfl rfl
     (by decide)).2 (by decide)⟩

/-- C7: fetching the same chunk reference twice — a cache miss followed by a
cache hit on the file the first call wrote — returns byte-identical buffers
for the same `(Offset, Size)` window whenever both calls return. -/
theorem C7_cache_idempotence (self : FileChunkPart) (opts : ManifestOptions) (fs : FileSystem)
    (net : JStr → Nat × List Nat) (ext : Externals) (d : JStr) (b1 b2 : List Nat)
    (hd : opts.cacheDirectory = some d)
    (hmiss : fs.lookup (pathJoin d self.Filename) = none)
    (h1 : (self.loadData opts fs net ext).result = .ok b1)
    (h2 : (self.loadData opts ((self.loadData opts fs net ext).fs) net ext).result = .ok b2) :
    b1 = b2 := by
  obtain ⟨data, hb1, hfs⟩ := loadData_miss_ok hd hmiss h1
  rw [hfs] at h2
  have hlk : ((pathJoin d self.Filename, data) :: fs).lookup (pathJoin d self.Filename)
      = some data := by
    simp [List.lookup]
  have hb2 := loadData_hit_ok hd hlk h2
  rw [hb1, hb2]

/-- C7 witness: two concrete fetches of the test container — miss then hit —
both return the full payload `[7, 9]`. -/
theorem C7_cache_idempotence_witness : ([7, 9] : List Nat) = [7, 9] :=
  C7_cache_idempotence partEx optsLazy [] netEx extEx [99] [7, 9] [7, 9] rfl (by decide)
    (by decide) (by decide)

/-- C8: on a cache hit with verification enabled, a mismatch of the recomputed
rolling hash (or, when it agrees, of the recomputed digest) against the
reference's expected value makes `loadData` throw the error naming that check
with the expected and actual values, leaving the cache untouched and issuing
no network request. -/
theorem C8_corrupt_cache_fails_fast (self : FileChunkPart) (opts : ManifestOptions)
    (fs : FileSystem) (net : JStr → Nat × List Nat) (ext : Externals) (d : JStr)
    (data : List Nat)
    (hd : opts.cacheDirectory = some d) (hlz : opts.lazy = false)
    (hdata : fs.lookup (pathJoin d self.Filename) = some data) :
    (toHex (ext.rollingHash data) ≠ self.Hash →
      self.loadData opts fs net ext =
        { result := .error (.hashMismatch self.Filename (toHex (ext.rollingHash data)) self.Hash),
          fs := fs, requests := 0 }) ∧
    (toHex (ext.rollingHash data) = self.Hash →
      some (hexOfBytes (ext.sha1 data)) ≠ self.Sha →
      self.loadData opts fs net ext =
        { result := .error (.shaMismatch self.Filename (hexOfBytes (ext.sha1 data)) self.Sha),
          fs := fs, requests := 0 }) := by
  rw [loadData_hit_eq hd hdata, hlz]
  constructor
  · intro hne
    simp [hne]
  · intro hr hne
    simp [hr, hne]

/-- C8 witness: a cached byte `[5]` hashing to 5 against an expected rolling
hash of 9 makes `loadData` throw the hash-mismatch error with no request. -/
theorem C8_corrupt_cache_fails_fast_witness :
    partEx8.loadData optsStrict fsHit8 netEx extEx =
      { result := .error (.hashMismatch partEx8.Filename (toHex (extEx.rollingHash [5]))
          partEx8.Hash),
        fs := fsHit8, requests := 0 } :=
  (C8_corrupt_cache_fails_fast partEx8 optsStrict fsHit8 netEx extEx [99] [5] rfl rfl
    (by decide)).1 (toHex_ne.mpr (by decide))

/-- C9: whenever `Offset + Size` is at most the payload length, `loadData`
returns a buffer of exactly `Size` bytes equal to the payload's window
`[Offset, Offset + Size)`; with `Offset = 0` and `Size` the payload length
this is the whole payload, and `Size = 0` gives the empty buffer. -/
theorem C9_slice_in_bounds (self : FileChunkPart) (opts : ManifestOptions) (fs : FileSystem)
    (net : JStr → Nat × List Nat) (ext : Externals) (d : JStr) (data : List Nat)
    (hd : opts.cacheDirectory = some d)
    (hdata : fs.lookup (pathJoin d self.Filename) = some data)
    (hver : opts.lazy = true ∨ (toHex (ext.rollingHash data) = self.Hash ∧
      some (hexOfBytes (ext.sha1 data)) = self.Sha))
    (hbound : self.Offset + self.Size ≤ data.length) :
    (self.loadData opts fs net ext).result = .ok ((data.drop self.Offset).take self.Size) ∧
    ((data.drop self.Offset).take self.Size).length = self.Size := by
  have hslice := bufferCopy_of_le hbound
  have hsl := @slice_ok self data fs 0 (Or.inl (by omega))
  constructor
  · rw [loadData_hit_eq hd hdata]
    rcases hver with hlz | ⟨hr, hsha⟩
    · simp [hlz, hsl, hslice]
    · by_cases hlz : opts.lazy = false <;> simp [hlz, hr, hsha, hsl, hslice]
  · simp only [List.length_take, List.length_drop]
    omega

/-- C9 witness: the lazy cache hit on payload `[7, 9]` with window `(0, 2)`
returns the whole payload, a buffer of exactly two bytes. -/
theorem C9_slice_in_bounds_witness :
    (partEx.loadData optsLazy fsHit netEx extEx).result =
      .ok ((([7, 9] : List Nat).drop partEx.Offset).take partEx.Size) ∧
    ((([7, 9] : List Nat).drop partEx.Offset).take partEx.Size).length = partEx.Size :=
  C9_slice_in_bounds partEx optsLazy fsHit netEx extEx [99] [7, 9] rfl (by decide)
    (Or.inl rfl) (by decide)

/-- C10 counterexample: with the two-byte payload `[7, 9]` cached and the
window `[3, 5)` requested, the claim's premise holds — the window overruns the
payload — yet `loadData` throws the copy's range error instead of returning a
`Size`-byte zero-filled buffer, refuting the claim that such a fetch never
fails. -/
theorem C10_counterexample :
    ([7, 9] : List Nat).length < partEx10b.Offset + partEx10b.Size ∧
    (partEx10b.loadData optsLazy fsHit netEx extEx).result =
      .error (.rangeError 3 2) := by
  constructor
  · decide
  · decide

/-- C10 (amended): when `Offset + Size` exceeds the payload length the outcome
splits on where the window starts.  If `Offset` is at most the payload length
(or the window is empty), `loadData` does not fail: it returns a buffer of
exactly `Size` bytes whose copy is silently truncated at the end of the
payload, every position beyond the available payload bytes holding zero.  But
if `Offset` lies strictly past the payload end and the window is non-empty,
the underlying copy throws a range error rather than returning a buffer. -/
theorem C10_slice_out_of_bounds (self : FileChunkPart) (opts : ManifestOptions)
    (fs : FileSystem) (net : JStr → Nat × List Nat) (ext : Externals) (d : JStr)
    (data : List Nat)
    (hd : opts.cacheDirectory = some d)
    (hdata : fs.lookup (pathJoin d self.Filename) = some data)
    (hver : opts.lazy = true ∨ (toHex (ext.rollingHash data) = self.Hash ∧
      some (hexOfBytes (ext.sha1 data)) = self.Sha))
    (hbound : data.length < self.Offset + self.Size) :
    ((self.Offset ≤ data.length ∨ self.Size = 0) →
      (self.loadData opts fs net ext).result =
        .ok ((data.drop self.Offset).take self.Size ++
          List.replicate (self.Size - (data.length - self.Offset)) 0) ∧
      ((data.drop self.Offset).take self.Size ++
        List.replicate (self.Size - (data.length - self.Offset)) 0).length = self.Size ∧
      (∀ i, data.length - self.Offset ≤ i → i < self.Size →
        ((data.drop self.Offset).take self.Size ++
          List.replicate (self.Size - (data.length - self.Offset)) 0).getD i 1 = 0)) ∧
    (data.length < self.Offset → 0 < self.Size →
      self.loadData opts fs net ext =
        { result := .error (.rangeError self.Offset data.length), fs := fs, requests := 0 }) := by
  have hslice := bufferCopy_of_gt hbound
  have hxl : ((data.drop self.Offset).take self.Size).length = data.length - self.Offset := by
    simp
    omega
  constructor
  · intro hin
    have hsl := @slice_ok self data fs 0 hin
    refine ⟨?_, ?_, ?_⟩
    · rw [loadData_hit_eq hd hdata]
      rcases hver with hlz | ⟨hr, hsha⟩
      · simp [hlz, hsl, hslice]
      · by_cases hlz : opts.lazy = false <;> simp [hlz, hr, hsha, hsl, hslice]
    · simp only [List.length_append, List.length_take, List.length_drop, List.length_replicate]
      omega
    · intro i hi1 hi2
      have hge : ((data.drop self.Offset).take self.Size).length ≤ i := by omega
      have hcond : i - self.Size ⊓ (data.length - self.Offset) <
          self.Size - (data.length - self.Offset) := by omega
      simp [List.getD, List.getElem?_append_right hge, List.getElem?_replicate, hcond]
  · intro hoff hsz
    have hsl := @slice_err self data fs 0 hsz hoff
    rw [loadData_hit_eq hd hdata]
    rcases hver with hlz | ⟨hr, hsha⟩
    · simp [hlz, hsl]
    · by_cases hlz : opts.lazy = false <;> simp [hlz, hr, hsha, hsl]

/-- C10 witness: the amended theorem at two concrete windows over the cached
payload `[7, 9]`: the overrunning window `[1, 5)` starting in bounds returns
the zero-padded four-byte buffer, while the window `[3, 5)` starting past the
payload end throws the range error. -/
theorem C10_slice_out_of_bounds_witness :
    (partEx10.loadData optsLazy fsHit netEx extEx).result =
      .ok ((([7, 9] : List Nat).drop partEx10.Offset).take partEx10.Size ++
        List.replicate (partEx10.Size - (([7, 9] : List Nat).length - partEx10.Offset)) 0) ∧
    partEx10b.loadData optsLazy fsHit netEx extEx =
      { result := .error (.rangeError partEx10b.Offset ([7, 9] : List Nat).length),
        fs := fsHit, requests := 0 } :=
  ⟨((C10_slice_out_of_bounds partEx10 optsLazy fsHit netEx extEx [99] [7, 9] rfl (by decide)
      (Or.inl rfl) (by decide)).1 (Or.inl (by decide))).1,
   (C10_slice_out_of_bounds partEx10b optsLazy fsHit netEx extEx [99] [7, 9] rfl (by decide)
      (Or.inl rfl) (by decide)).2 (by decide) (by decide)⟩

end Claims

end EpicMP
